import Mathlib

/-!
Verification of the Daily Rhythm & Schedule Engine of the selah.rhythm
application.  The definitions below are shallow embeddings of:

* `performDailyReset` from `src/hooks/useDailyReset.js` (the spec's
  `tick(now)` — daily rollover, weekly habit reset, write ordering);
* `getTimeFromY`, `getBlockStyle`, `snapToIncrement`,
  `handleScheduleDragOver`, `handleScheduleDragLeave`,
  `handleBlockDragEnd`, `handleScheduleDrop`, `saveEvent` and `allTasks`
  from `src/components/views/OrderView.jsx`;
* `genId`-produced string ids and `parseInt`-style parsing from
  `src/utils/helpers` (`src/unnamed/part_002`).

JavaScript numbers are modelled as `Int` where the source only ever
computes integers and as `Rat` where fractional pixel arithmetic occurs;
`undefined`/absent fields are modelled with `Option`, and JavaScript
truthiness is spelled out explicitly at each use site.
-/

namespace Selah

/-- JS truthiness of an optional boolean field (absent or `false` is falsy). -/
def truthy : Option Bool → Bool
  | some b => b
  | none => false

/-- JS truthiness of an optional string (absent or `""` is falsy). -/
def strTruthy : Option String → Bool
  | some s => s ≠ ""
  | none => false

/-- `v || d` for an optional string `v`: JS falls back to `d` when `v` is
absent or empty. -/
def orElseStr (v : Option String) (d : String) : String :=
  match v with
  | some s => if s = "" then d else s
  | none => d

/-- A habit: `{ id, name, done, history }`.  `history` entries pair an ISO
date string with a done flag. -/
structure Habit where
  id : String
  name : String
  done : Bool
  history : List (String × Bool)
deriving Repr, DecidableEq, Inhabited

/-- A calendar event's back-reference to a task or habit
(`itemRef: { type, id, list? }` in the source). -/
structure ItemRef where
  refType : String
  id : String
  list : Option String
deriving Repr, DecidableEq, Inhabited

/-- A schedule event as stored in `schedEvents`:
`{ id, title, hour, minute, duration, type, itemRef?, persistent? }`.
`persistent` is `Option Bool` because the source creates drop events
without the field and checks it by truthiness. -/
structure SchedEvent where
  id : String
  title : String
  hour : Int
  minute : Int
  duration : Int
  evType : String
  itemRef : Option ItemRef
  persistent : Option Bool
deriving Repr, DecidableEq, Inhabited

/-- A task: `{ id, text, done, time?, completedAt?, archivedAt? }`. -/
structure Task where
  id : String
  text : String
  done : Bool
  time : Option String
  completedAt : Option String
  archivedAt : Option String
deriving Repr, DecidableEq, Inhabited

/-- The four working lists plus the capped `completed` archive. -/
structure Tasks where
  primary : List Task
  today : List Task
  thisWeek : List Task
  later : List Task
  completed : List Task
deriving Repr, DecidableEq, Inhabited

/-- The daily reflection record `{ mattered, released, wait }`. -/
structure Reflections where
  mattered : String
  released : String
  wait : String
deriving Repr, DecidableEq, Inhabited

/-- An instant of wall-clock time, abstracted to exactly what
`performDailyReset` extracts from `new Date()`:
`dayKey = getTodayISO()`, `weekKey = getWeekNumber(new Date())`,
`iso = new Date().toISOString()`. -/
structure Instant where
  dayKey : String
  weekKey : Int
  iso : String
deriving Repr, DecidableEq, Inhabited

/-- The application state touched by `performDailyReset`: the React state
plus the two rollover-ledger localStorage keys
(`selah_lastDailyResetISO` and `selah_last_habit_reset_week`, both read
with a `|| ''` default). -/
structure ResetState where
  habits : List Habit
  schedEvents : List SchedEvent
  tasks : Tasks
  gratitude : String
  reflections : Reflections
  lastDayKey : String
  lastWeekKey : String
deriving Repr, DecidableEq, Inhabited

/-- Last `n` elements of a list — JS `slice(-n)`. -/
def lastN (n : Nat) (l : List α) : List α :=
  l.drop (l.length - n)

/-- Stamping of a newly archived task:
`{ ...t, archivedAt: new Date().toISOString(), completedAt: t.completedAt || new Date().toISOString() }`. -/
def stampTask (now : Instant) (t : Task) : Task :=
  { t with archivedAt := some now.iso,
           completedAt := some (orElseStr t.completedAt now.iso) }

/-- The `done` tasks of all four working lists, in the order the source
concatenates them. -/
def doneTasks (tk : Tasks) : List Task :=
  tk.primary.filter (fun t => t.done) ++ tk.today.filter (fun t => t.done) ++
    tk.thisWeek.filter (fun t => t.done) ++ tk.later.filter (fun t => t.done)

/-- The task-archival step of the daily reset (`setTasks` updater in
`performDailyReset`): move done tasks into `completed` with timestamps,
keep the last 100. -/
def archiveTasks (now : Instant) (tk : Tasks) : Tasks :=
  { primary := tk.primary.filter (fun t => !t.done)
    today := tk.today.filter (fun t => !t.done)
    thisWeek := tk.thisWeek.filter (fun t => !t.done)
    later := tk.later.filter (fun t => !t.done)
    completed := lastN 100 (tk.completed ++ (doneTasks tk).map (stampTask now)) }

/-- The cleared reflection record `{ mattered: '', released: '', wait: '' }`. -/
def emptyReflections : Reflections :=
  { mattered := "", released := "", wait := "" }

/-- Whether the daily branch of `performDailyReset` fires:
`lastReset !== todayISO`. -/
def dailyFires (now : Instant) (s : ResetState) : Bool :=
  s.lastDayKey ≠ now.dayKey

/-- The daily branch of `performDailyReset`: when the stored
`selah_lastDailyResetISO` differs from today's key, uncheck all habits,
keep only persistent events, archive completed tasks, clear
gratitude/reflections, and finally advance the day ledger key. -/
def dailyStep (now : Instant) (s : ResetState) : ResetState :=
  if s.lastDayKey ≠ now.dayKey then
    { s with
      habits := s.habits.map (fun h => { h with done := false })
      schedEvents := s.schedEvents.filter (fun e => truthy e.persistent)
      tasks := archiveTasks now s.tasks
      gratitude := ""
      reflections := emptyReflections
      lastDayKey := now.dayKey }
  else s

/-- The weekly branch of `performDailyReset`: when the stored
`selah_last_habit_reset_week` differs from `String(getWeekNumber(now))`,
uncheck all habits (`history: h.history || []` keeps the history — a JS
array is always truthy) and advance the week ledger key. -/
def weeklyStep (now : Instant) (s : ResetState) : ResetState :=
  if s.lastWeekKey ≠ toString now.weekKey then
    { s with
      habits := s.habits.map (fun h => { h with done := false, history := h.history })
      lastWeekKey := toString now.weekKey }
  else s

/-- `performDailyReset` — the spec's `tick(now)`.  The daily check runs
first, then the independent weekly check, within one synchronous call. -/
def tick (now : Instant) (s : ResetState) : ResetState :=
  weeklyStep now (dailyStep now s)

/-- Folding `tick` over a sequence of instants (repeated timer callbacks). -/
def runTicks (nows : List Instant) (s : ResetState) : ResetState :=
  nows.foldl (fun st n => tick n st) s

theorem weeklyStep_lastDayKey (now : Instant) (s : ResetState) :
    (weeklyStep now s).lastDayKey = s.lastDayKey := by
  unfold weeklyStep
  split <;> rfl

theorem weeklyStep_schedEvents (now : Instant) (s : ResetState) :
    (weeklyStep now s).schedEvents = s.schedEvents := by
  unfold weeklyStep
  split <;> rfl

theorem weeklyStep_tasks (now : Instant) (s : ResetState) :
    (weeklyStep now s).tasks = s.tasks := by
  unfold weeklyStep
  split <;> rfl

theorem weeklyStep_gratitude (now : Instant) (s : ResetState) :
    (weeklyStep now s).gratitude = s.gratitude := by
  unfold weeklyStep
  split <;> rfl

theorem weeklyStep_reflections (now : Instant) (s : ResetState) :
    (weeklyStep now s).reflections = s.reflections := by
  unfold weeklyStep
  split <;> rfl

theorem tick_lastDayKey (now : Instant) (s : ResetState) :
    (tick now s).lastDayKey = now.dayKey := by
  unfold tick
  rw [weeklyStep_lastDayKey]
  unfold dailyStep
  split
  · rfl
  · next h => simpa using not_not.mp h

theorem tick_lastWeekKey (now : Instant) (s : ResetState) :
    (tick now s).lastWeekKey = toString now.weekKey := by
  unfold tick weeklyStep
  split
  · rfl
  · next h => simpa using not_not.mp h

/-- Claim C1: for every state and every instant `now`, calling `tick now`
twice produces exactly the same resulting state (habits, calendar events,
tasks, reflections and both ledger keys) as calling it once; once a
boundary has been processed, repeated calls are no-ops. -/
theorem tick_idempotent (now : Instant) (s : ResetState) :
    tick now (tick now s) = tick now s := by
  have hd : dailyStep now (tick now s) = tick now s := by
    unfold dailyStep
    rw [if_neg]
    simp [tick_lastDayKey]
  show weeklyStep now (dailyStep now (tick now s)) = tick now s
  rw [hd]
  unfold weeklyStep
  rw [if_neg]
  simp [tick_lastWeekKey]

/-- Claim C2: whenever the stored day key differs from `toDateString(now)`
(however stale), a single `tick now` yields the fully rolled-over state:
all habits unchecked, all non-persistent events purged, every done task
moved out of its working list into the stamped, capped archive, the
reflection fields cleared, and the day ledger key advanced to
`now.dayKey` — one catch-up transaction, not a per-day replay. -/
theorem tick_catchup (now : Instant) (s : ResetState)
    (h : s.lastDayKey ≠ now.dayKey) :
    (∀ hb ∈ (tick now s).habits, hb.done = false) ∧
    (tick now s).schedEvents = s.schedEvents.filter (fun e => truthy e.persistent) ∧
    (tick now s).tasks.primary = s.tasks.primary.filter (fun t => !t.done) ∧
    (tick now s).tasks.today = s.tasks.today.filter (fun t => !t.done) ∧
    (tick now s).tasks.thisWeek = s.tasks.thisWeek.filter (fun t => !t.done) ∧
    (tick now s).tasks.later = s.tasks.later.filter (fun t => !t.done) ∧
    (tick now s).tasks.completed =
      lastN 100 (s.tasks.completed ++ (doneTasks s.tasks).map (stampTask now)) ∧
    (tick now s).gratitude = "" ∧
    (tick now s).reflections = emptyReflections ∧
    (tick now s).lastDayKey = now.dayKey := by
  have hds : dailyStep now s =
      { s with
        habits := s.habits.map (fun h => { h with done := false })
        schedEvents := s.schedEvents.filter (fun e => truthy e.persistent)
        tasks := archiveTasks now s.tasks
        gratitude := ""
        reflections := emptyReflections
        lastDayKey := now.dayKey } := by
    unfold dailyStep
    rw [if_pos h]
  refine ⟨?_, ?_, ?_, ?_, ?_, ?_, ?_, ?_, ?_, tick_lastDayKey now s⟩
  · intro hb hmem
    unfold tick weeklyStep at hmem
    rw [hds] at hmem
    split at hmem <;> simp at hmem <;>
      obtain ⟨x, _, hx⟩ := hmem <;> simp [← hx]
  · show (weeklyStep now (dailyStep now s)).schedEvents = _
    rw [weeklyStep_schedEvents, hds]
  · show (weeklyStep now (dailyStep now s)).tasks.primary = _
    rw [weeklyStep_tasks, hds]; rfl
  · show (weeklyStep now (dailyStep now s)).tasks.today = _
    rw [weeklyStep_tasks, hds]; rfl
  · show (weeklyStep now (dailyStep now s)).tasks.thisWeek = _
    rw [weeklyStep_tasks, hds]; rfl
  · show (weeklyStep now (dailyStep now s)).tasks.later = _
    rw [weeklyStep_tasks, hds]; rfl
  · show (weeklyStep now (dailyStep now s)).tasks.completed = _
    rw [weeklyStep_tasks, hds]; rfl
  · show (weeklyStep now (dailyStep now s)).gratitude = _
    rw [weeklyStep_gratitude, hds]
  · show (weeklyStep now (dailyStep now s)).reflections = _
    rw [weeklyStep_reflections, hds]

theorem tick_keeps_persistent_mem (n : Instant) (s : ResetState) (e : SchedEvent)
    (hp : e.persistent = some true) (he : e ∈ s.schedEvents) :
    e ∈ (tick n s).schedEvents := by
  unfold tick
  rw [weeklyStep_schedEvents]
  unfold dailyStep
  split
  · simpa [List.mem_filter, truthy, hp] using he
  · exact he

/-- Claim C3: an event with `persistent = true` is still present, unchanged,
after any number of `tick` calls; an event whose `persistent` flag is falsy
(`false` or absent) is removed by the first `tick` whose daily rollover
fires while the event exists. -/
theorem rollover_persistence (s : ResetState) (e : SchedEvent) (now : Instant)
    (nows : List Instant) :
    (e.persistent = some true → e ∈ s.schedEvents →
      e ∈ (runTicks nows s).schedEvents) ∧
    (truthy e.persistent = false → e ∈ s.schedEvents → dailyFires now s = true →
      e ∉ (tick now s).schedEvents) := by
  constructor
  · intro hp he
    unfold runTicks
    induction nows generalizing s with
    | nil => exact he
    | cons n rest ih => exact ih _ (tick_keeps_persistent_mem n s e hp he)
  · intro hp he hf
    have hne : s.lastDayKey ≠ now.dayKey := by simpa [dailyFires] using hf
    unfold tick
    rw [weeklyStep_schedEvents]
    unfold dailyStep
    rw [if_pos hne]
    simp [List.mem_filter, hp]

/-- Claim C4: when the rollover fires with more than 100 previously archived
plus newly completed tasks, the archive afterwards is exactly the trailing
100 entries of the old archive followed by the newly stamped tasks (a FIFO
cap, oldest evicted first), and every newly archived task carries
`archivedAt` and `completedAt` timestamps. -/
theorem archive_cap (now : Instant) (s : ResetState)
    (h : s.lastDayKey ≠ now.dayKey)
    (hlen : 100 < s.tasks.completed.length + (doneTasks s.tasks).length) :
    (tick now s).tasks.completed =
      lastN 100 (s.tasks.completed ++ (doneTasks s.tasks).map (stampTask now)) ∧
    (tick now s).tasks.completed.length = 100 ∧
    (tick now s).tasks.completed <:+
      (s.tasks.completed ++ (doneTasks s.tasks).map (stampTask now)) ∧
    (∀ t ∈ (doneTasks s.tasks).map (stampTask now),
      t.archivedAt = some now.iso ∧ t.completedAt.isSome = true) := by
  have htasks : (tick now s).tasks = archiveTasks now s.tasks := by
    unfold tick
    rw [weeklyStep_tasks]
    unfold dailyStep
    rw [if_pos h]
  have hcomp : (tick now s).tasks.completed =
      lastN 100 (s.tasks.completed ++ (doneTasks s.tasks).map (stampTask now)) := by
    rw [htasks]; rfl
  refine ⟨hcomp, ?_, ?_, ?_⟩
  · rw [hcomp]
    unfold lastN
    rw [List.length_drop]
    rw [List.length_append, List.length_map]
    omega
  · rw [hcomp]
    exact List.drop_suffix _ _
  · intro t ht
    rw [List.mem_map] at ht
    obtain ⟨x, -, hx⟩ := ht
    subst hx
    exact ⟨rfl, rfl⟩

/-- A persisted write issued by `performDailyReset`, carrying the written
value (each React state update is mirrored by a `localStorage.setItem` on
the corresponding key, in source order). -/
inductive WriteOp where
  | habits (v : List Habit)
  | schedEvents (v : List SchedEvent)
  | tasks (v : Tasks)
  | gratitude (v : String)
  | reflections (v : Reflections)
  | lastDayKey (v : String)
  | lastWeekKey (v : String)
deriving Repr, DecidableEq

/-- The localStorage key a write targets. -/
def WriteOp.key : WriteOp → String
  | .habits _ => "selah_habits"
  | .schedEvents _ => "selah_schedEvents"
  | .tasks _ => "selah_tasks"
  | .gratitude _ => "selah_gratitude"
  | .reflections _ => "selah_reflections"
  | .lastDayKey _ => "selah_lastDailyResetISO"
  | .lastWeekKey _ => "selah_last_habit_reset_week"

/-- The `localStorage.setItem` calls the daily branch of `performDailyReset`
executes synchronously in its own function body (source lines 102-109):
gratitude, reflections, then the `selah_lastDailyResetISO` ledger key.
The habit/event/task `setItem` calls are NOT among them: they sit inside
`useState` updater callbacks, which React defers to the next render flush
(see `dailyDeferredWrites`).  The app uses plain `useState` setters on
React 19 with no `flushSync`, so the updaters do not run inside this body. -/
def dailySyncWrites (now : Instant) (s : ResetState) : List WriteOp :=
  if s.lastDayKey ≠ now.dayKey then
    [WriteOp.gratitude "",
     WriteOp.reflections emptyReflections,
     WriteOp.lastDayKey now.dayKey]
  else []

/-- The synchronous write of the weekly branch (source line 127): the
`selah_last_habit_reset_week` ledger key.  The weekly habit `setItem`
(line 124) is inside a `useState` updater and is deferred. -/
def weeklySyncWrites (now : Instant) (s : ResetState) : List WriteOp :=
  if s.lastWeekKey ≠ toString now.weekKey then
    [WriteOp.lastWeekKey (toString now.weekKey)]
  else []

/-- The `localStorage.setItem` calls of the daily branch that live inside
queued `useState` updater callbacks (source lines 64-100: habits, schedule
events, tasks).  React runs these during the next render flush, after the
synchronous body of `performDailyReset` — including its ledger write —
has finished. -/
def dailyDeferredWrites (now : Instant) (s : ResetState) : List WriteOp :=
  if s.lastDayKey ≠ now.dayKey then
    [WriteOp.habits (s.habits.map (fun h => { h with done := false })),
     WriteOp.schedEvents (s.schedEvents.filter (fun e => truthy e.persistent)),
     WriteOp.tasks (archiveTasks now s.tasks)]
  else []

/-- The deferred habit write of the weekly branch (source line 124).  At
flush time its updater runs after the daily habit updater, so the trace
applies it to the daily result. -/
def weeklyDeferredWrites (now : Instant) (s : ResetState) : List WriteOp :=
  if s.lastWeekKey ≠ toString now.weekKey then
    [WriteOp.habits (s.habits.map (fun h => { h with done := false, history := h.history }))]
  else []

/-- The full persistence-write sequence of one `performDailyReset` call
under React's deferred-updater semantics: first the synchronous writes of
the function body (daily branch then weekly branch), and only then — at
the next render flush — the writes issued inside the queued `useState`
updaters, in queue order. -/
def tickPersistWrites (now : Instant) (s : ResetState) : List WriteOp :=
  (dailySyncWrites now s ++ weeklySyncWrites now s) ++
    (dailyDeferredWrites now s ++ weeklyDeferredWrites now (dailyStep now s))

/-- Applying one persisted write to the state. -/
def applyWrite (s : ResetState) : WriteOp → ResetState
  | .habits v => { s with habits := v }
  | .schedEvents v => { s with schedEvents := v }
  | .tasks v => { s with tasks := v }
  | .gratitude v => { s with gratitude := v }
  | .reflections v => { s with reflections := v }
  | .lastDayKey v => { s with lastDayKey := v }
  | .lastWeekKey v => { s with lastWeekKey := v }

/-- The deferred-updater write trace is faithful to the state transformer:
replaying the whole trace of a `tick` reproduces `tick`'s final state —
per key, the last write carries the final value; only the interleaving
differs from the lexical source order. -/
theorem applyWrites_tick (now : Instant) (s : ResetState) :
    List.foldl applyWrite s (tickPersistWrites now s) = tick now s := by
  by_cases hd : s.lastDayKey = now.dayKey <;>
    by_cases hw : s.lastWeekKey = toString now.weekKey <;>
      simp [tickPersistWrites, dailySyncWrites, weeklySyncWrites,
        dailyDeferredWrites, weeklyDeferredWrites, tick, weeklyStep, dailyStep,
        hd, hw, applyWrite]

/-! OrderView.jsx: grid geometry, drag-and-drop, editor session. -/

/-- `HOUR_HEIGHT` from `src/data/constants.js`. -/
def HOUR_HEIGHT : ℚ := 64

/-- `GRID_TOP_PADDING` from `OrderView.jsx`. -/
def GRID_TOP_PADDING : ℚ := 6

/-- JS `Math.max` on two numbers. -/
def jsMax (a b : ℚ) : ℚ := if a ≤ b then b else a

/-- JS `Math.min` on two numbers. -/
def jsMin (a b : ℚ) : ℚ := if a ≤ b then a else b

/-- JS `Math.max` on integer-valued numbers. -/
def jsMaxI (a b : ℤ) : ℤ := if a ≤ b then b else a

/-- JS `Math.min` on integer-valued numbers. -/
def jsMinI (a b : ℤ) : ℤ := if a ≤ b then a else b

theorem jsMax_eq (a b : ℚ) : jsMax a b = max a b := (max_def a b).symm

theorem jsMin_eq (a b : ℚ) : jsMin a b = min a b := (min_def a b).symm

theorem jsMaxI_eq (a b : ℤ) : jsMaxI a b = max a b := (max_def a b).symm

theorem jsMinI_eq (a b : ℤ) : jsMinI a b = min a b := (min_def a b).symm

/-- JS `Math.round`: half-up rounding, `Math.round x = ⌊x + 1/2⌋`. -/
def jsRound (x : ℚ) : ℤ := ⌊x + 1 / 2⌋

/-- Truncation toward zero of a rational (how JS `%` divides). -/
def ratTrunc (x : ℚ) : ℤ := if 0 ≤ x then ⌊x⌋ else ⌈x⌉

/-- JS `%` on numbers: `x % n = x - n * trunc (x / n)`. -/
def jsMod (x n : ℚ) : ℚ := x - n * (ratTrunc (x / n) : ℚ)

/-- `getTimeFromY(y, rect)` from `OrderView.jsx` (lines 195-227): convert a
client-Y pixel position to an `(hour, minute)` pair, snapped to 5-minute
resolution and clamped to the visible window `[startH, startH + len)`. -/
def getTimeFromY (startH len : ℤ) (y rectTop : ℚ) : ℤ × ℤ :=
  let relY := y - rectTop
  let adjustedY := jsMax 0 (relY - GRID_TOP_PADDING)
  let usableHeight := (len : ℚ) * HOUR_HEIGHT
  let clampedY := jsMax 0 (jsMin adjustedY (usableHeight - 1))
  let totalMinutes := clampedY / HOUR_HEIGHT * 60
  let hourOffset : ℤ := ⌊totalMinutes / 60⌋
  let rawMinute := jsMod totalMinutes 60
  let snappedMinute := jsRound (rawMinute / 5) * 5
  let hour0 := startH + hourOffset
  let hm : ℤ × ℤ :=
    if 60 ≤ snappedMinute then (jsMinI (hour0 + 1) (startH + len - 1), 0)
    else (hour0, snappedMinute)
  (jsMaxI startH (jsMinI hm.1 (startH + len - 1)), jsMaxI 0 (jsMinI hm.2 55))

/-- The pixel offset part of `getBlockStyle(event)` (lines 502-512):
`top = ((hour - startH) + minute / 60) * HOUR_HEIGHT + GRID_TOP_PADDING`. -/
def blockTop (startH hour minute : ℤ) : ℚ :=
  (((hour : ℚ) - (startH : ℚ)) + (minute : ℚ) / 60) * HOUR_HEIGHT + GRID_TOP_PADDING

/-- `getBlockStyle(event)`: `(top, height)` of an event's rectangle, with
the height floored at 24 pixels. -/
def getBlockStyle (startH : ℤ) (e : SchedEvent) : ℚ × ℚ :=
  (blockTop startH e.hour e.minute, jsMax ((e.duration : ℚ) / 60 * HOUR_HEIGHT) 24)

/-- `snapToIncrement(minutes)` (lines 232-235): nearest-5 snapping with a 55
cap. -/
def snapToIncrement (minutes : ℤ) : ℤ :=
  let snapped := jsRound ((minutes : ℚ) / 5) * 5
  if 60 ≤ snapped then 55 else snapped

/-- `String(m).padStart(2, '0')`. -/
def pad2 (m : ℤ) : String :=
  if 0 ≤ m ∧ m < 10 then "0" ++ toString m else toString m

/-- `fmtTimeSlot(h, m)` from `src/utils/helpers`. -/
def fmtTimeSlot (h m : ℤ) : String :=
  let hour12 := if h = 0 then 12 else if h > 12 then h - 12 else h
  let ampm := if h < 12 then "AM" else "PM"
  toString hour12 ++ ":" ++ pad2 m ++ " " ++ ampm

/-- The decoded `application/json` drag payload: field `type` plus the
optional fields the handlers look at.  A payload that failed `JSON.parse`
is modelled as `none` at the use sites. -/
structure RawDragData where
  dataType : String
  taskId : Option String
  habitId : Option String
  blockId : Option String
  duration : Option Int
deriving Repr, DecidableEq, Inhabited

/-- The drop-preview rectangle `{top, height, time}`. -/
structure Preview where
  top : ℚ
  height : ℚ
  time : String
deriving Repr, DecidableEq

/-- The floating drag label `{x, y, time}`. -/
structure DragLabel where
  x : ℚ
  y : ℚ
  time : String
deriving Repr, DecidableEq

/-- The OrderView component state the drag handlers touch. -/
structure OrderState where
  schedEvents : List SchedEvent
  dropPreview : Option Preview
  dragLabel : Option DragLabel
  isDraggingBlock : Option String
deriving Repr, DecidableEq

/-- The duration the drag-over preview uses: `60` by default, the payload's
truthy `duration` if present, and `15` whenever the payload is a habit
(lines 296-302). -/
def dragOverDuration (payload : Option RawDragData) : ℤ :=
  let d1 : ℤ :=
    match payload with
    | some d =>
      match d.duration with
      | some v => if v = 0 then 60 else v
      | none => 60
    | none => 60
  match payload with
  | some d => if d.dataType = "habit" then 15 else d1
  | none => d1

/-- `handleScheduleDragOver(e)` (lines 285-322): recompute the preview
rectangle and the floating time label from the pointer position; the event
store is not touched. -/
def handleScheduleDragOver (payload : Option RawDragData) (clientX clientY rectTop : ℚ)
    (startH len : ℤ) (st : OrderState) : OrderState :=
  let hm := getTimeFromY startH len clientY rectTop
  let duration := dragOverDuration payload
  let hoursFromStart := ((hm.1 : ℚ) - (startH : ℚ)) + (hm.2 : ℚ) / 60
  let top := hoursFromStart * HOUR_HEIGHT + GRID_TOP_PADDING
  let height := jsMax ((duration : ℚ) / 60 * HOUR_HEIGHT) 24
  let maxTop := (len : ℚ) * HOUR_HEIGHT - height
  { st with
    dropPreview := some ⟨jsMax 0 (jsMin top maxTop), height, fmtTimeSlot hm.1 hm.2⟩
    dragLabel := some ⟨clientX, clientY, fmtTimeSlot hm.1 hm.2⟩ }

/-- `handleScheduleDragLeave(e)` (lines 324-330): clear the preview and
label when the pointer actually leaves the grid. -/
def handleScheduleDragLeave (leavingGrid : Bool) (st : OrderState) : OrderState :=
  if leavingGrid then { st with dropPreview := none, dragLabel := none } else st

/-- `handleBlockDragEnd` (lines 415-419): clear all transient drag state. -/
def handleBlockDragEnd (st : OrderState) : OrderState :=
  { st with isDraggingBlock := none, dropPreview := none, dragLabel := none }

/-- `allTasks` (lines 165-170): the four working lists tagged with their
list name, restricted to tasks that are not done. -/
def allTasks (tk : Tasks) : List (Task × String) :=
  (tk.primary.map (fun t => (t, "primary")) ++ tk.today.map (fun t => (t, "today")) ++
    tk.thisWeek.map (fun t => (t, "thisWeek")) ++ tk.later.map (fun t => (t, "later"))).filter
    (fun p => !p.1.done)

/-- JS `parseInt` on a string (decimal): optional sign after whitespace,
then leading digits; `none` models `NaN`. -/
def jsParseInt (s : String) : Option Int :=
  let cs := s.data.dropWhile (fun c => c = ' ')
  let signAndRest : Int × List Char :=
    match cs with
    | '-' :: r => (-1, r)
    | '+' :: r => (1, r)
    | r => (1, r)
  let ds := signAndRest.2.takeWhile (fun c => c.isDigit)
  if ds.isEmpty then none
  else some (signAndRest.1 *
    (ds.foldl (fun a c => a * 10 + (c.toNat - 48)) 0 : Nat))

/-- `parseInt(x) || d` for an optional string `x` (absent strings parse to
`NaN`, and `0` is falsy). -/
def parseIntOr (x : Option String) (d : Int) : Int :=
  match x with
  | some s =>
    match jsParseInt s with
    | some v => if v = 0 then d else v
    | none => d
  | none => d

/-- `data.duration || d` for the optional numeric payload field. -/
def intOr (x : Option Int) (d : Int) : Int :=
  match x with
  | some v => if v = 0 then d else v
  | none => d

/-- The clamped reposition computation of the `scheduleBlock` branch of
`handleScheduleDrop` (lines 373-386): total minutes from the window start,
clamped to `[0, len * 60 - duration]`, split back into hour and
5-minute-snapped minute.  The divisions act on a non-negative integer, so
`Int` division coincides with JS `Math.floor` and `%`. -/
def repositionTime (startH len hour minute dur : ℤ) : ℤ × ℤ :=
  let workdayMinutes := len * 60
  let newTotalMinutes := (hour - startH) * 60 + minute
  let clampedMinutes := jsMaxI 0 (jsMinI newTotalMinutes (workdayMinutes - dur))
  (startH + clampedMinutes / 60, snapToIncrement (clampedMinutes % 60))

/-- `handleScheduleDrop(e)` (lines 332-391): decode the payload and either
create a task- or habit-linked event at the pointer time, move an existing
block, or — for unparseable or unresolvable payloads — leave the event
store unchanged.  `freshId` stands for the `genId()` call. -/
def handleScheduleDrop (payload : Option RawDragData) (freshId : String)
    (clientY rectTop : ℚ) (startH len : ℤ) (tasks : Tasks) (habits : List Habit)
    (events : List SchedEvent) : List SchedEvent :=
  let hm := getTimeFromY startH len clientY rectTop
  match payload with
  | none => events
  | some data =>
    if data.dataType = "task" then
      match (allTasks tasks).find? (fun p => some p.1.id = data.taskId) with
      | some p =>
        events ++ [{ id := freshId, title := p.1.text, hour := hm.1, minute := hm.2,
                     duration := parseIntOr p.1.time 30, evType := "task",
                     itemRef := some ⟨"task", p.1.id, some p.2⟩, persistent := none }]
      | none => events
    else if data.dataType = "habit" then
      match habits.find? (fun h => some h.id = data.habitId) with
      | some habit =>
        events ++ [{ id := freshId, title := habit.name, hour := hm.1, minute := hm.2,
                     duration := 15, evType := "habit",
                     itemRef := some ⟨"habit", habit.id, none⟩, persistent := none }]
      | none => events
    else if data.dataType = "scheduleBlock" ∧ strTruthy data.blockId then
      match data.blockId with
      | some b =>
        let nhm := repositionTime startH len hm.1 hm.2 (intOr data.duration 30)
        events.map (fun ev =>
          if ev.id = b then { ev with hour := nhm.1, minute := nhm.2 } else ev)
      | none => events
    else events

/-- The transient editor (modal) state `saveEvent` reads. -/
structure EditorState where
  popTitle : String
  popDuration : ℤ
  popHour : ℤ
  popMinute : ℤ
  customDur : String
  popType : String
  popItemRef : Option String
  popPersistent : Bool
deriving Repr, DecidableEq

/-- The final duration `saveEvent` commits (line 445):
`customDur ? Math.min(600, Math.max(1, parseInt(customDur) || 30)) : popDuration`. -/
def finalDuration (customDur : String) (popDuration : ℤ) : ℤ :=
  if customDur ≠ "" then
    jsMinI 600 (jsMaxI 1 (parseIntOr (some customDur) 30))
  else popDuration

/-- JS `String.prototype.trim` restricted to ASCII space characters:
drop spaces from both ends. -/
def jsTrim (s : String) : String :=
  String.mk (((s.data.dropWhile (fun c => c = ' ')).reverse.dropWhile
    (fun c => c = ' ')).reverse)

/-- The title and item reference `saveEvent` resolves from the editor state
(lines 425-441): a linked task or habit supplies the title, otherwise the
trimmed free-text title is used. -/
def resolveTitleRef (ed : EditorState) (tasks : Tasks) (habits : List Habit) :
    String × Option ItemRef :=
  let title0 := jsTrim ed.popTitle
  if ed.popType = "task" ∧ strTruthy ed.popItemRef then
    match (allTasks tasks).find? (fun p => some (p.2 ++ ":" ++ p.1.id) = ed.popItemRef) with
    | some p => (p.1.text, some ⟨"task", p.1.id, some p.2⟩)
    | none => (title0, none)
  else if ed.popType = "habit" ∧ strTruthy ed.popItemRef then
    match habits.find? (fun h => some h.id = ed.popItemRef) with
    | some habit => (habit.name, some ⟨"habit", habit.id, none⟩)
    | none => (title0, none)
  else (title0, none)

/-- `saveEvent()` (lines 424-470): validate the title, compute the final
duration, then append a new event (`add` mode) or update the edited event
(`edit` mode); an empty resolved title makes the save a silent no-op. -/
def saveEvent (ed : EditorState) (mode : String) (editedId : Option String)
    (freshId : String) (tasks : Tasks) (habits : List Habit)
    (events : List SchedEvent) : List SchedEvent :=
  let tr := resolveTitleRef ed tasks habits
  if tr.1 = "" then events
  else
    let dur := finalDuration ed.customDur ed.popDuration
    if mode = "add" then
      events ++ [{ id := freshId, title := tr.1, hour := ed.popHour,
                   minute := ed.popMinute, duration := dur, evType := ed.popType,
                   itemRef := tr.2, persistent := some ed.popPersistent }]
    else
      match editedId with
      | some eid =>
        events.map (fun ev =>
          if ev.id = eid then
            { ev with title := tr.1, hour := ed.popHour, minute := ed.popMinute,
                      duration := dur, evType := ed.popType, itemRef := tr.2,
                      persistent := some ed.popPersistent }
          else ev)
      | none => events

theorem getTimeFromY_exact (startH len h m : ℤ) (rectTop : ℚ)
    (h1 : startH ≤ h) (h2 : h < startH + len)
    (h3 : 0 ≤ m) (h4 : m < 60) (h5 : (5:ℤ) ∣ m) :
    getTimeFromY startH len (rectTop + blockTop startH h m) rectTop = (h, m) := by
  obtain ⟨k, hk⟩ := h5
  have hm55 : m ≤ 55 := by omega
  have hc1 : ((startH : ℚ)) ≤ (h : ℚ) := by exact_mod_cast h1
  have hc2 : (h : ℚ) ≤ (startH : ℚ) + (len : ℚ) - 1 := by
    have h' : h ≤ startH + len - 1 := by omega
    exact_mod_cast h'
  have hm0 : (0 : ℚ) ≤ (m : ℚ) := by exact_mod_cast h3
  have hm55q : (m : ℚ) ≤ 55 := by exact_mod_cast hm55
  simp only [getTimeFromY, HOUR_HEIGHT, GRID_TOP_PADDING, jsMax_eq, jsMin_eq,
    jsMaxI_eq, jsMinI_eq, jsMod, jsRound, blockTop]
  have eInner : rectTop + (((h : ℚ) - (startH : ℚ) + (m : ℚ) / 60) * 64 + 6) - rectTop - 6
      = ((h : ℚ) - (startH : ℚ) + (m : ℚ) / 60) * 64 := by ring
  rw [eInner]
  have hA0 : (0 : ℚ) ≤ ((h : ℚ) - (startH : ℚ) + (m : ℚ) / 60) * 64 := by
    have hq : (0 : ℚ) ≤ (h : ℚ) - (startH : ℚ) + (m : ℚ) / 60 := by
      have : (0 : ℚ) ≤ (m : ℚ) / 60 := by positivity
      linarith
    exact mul_nonneg hq (by norm_num)
  have hAle : ((h : ℚ) - (startH : ℚ) + (m : ℚ) / 60) * 64 ≤ (len : ℚ) * 64 - 1 := by
    nlinarith [hc2, hm55q]
  rw [max_eq_right hA0, min_eq_left hAle, max_eq_right hA0]
  have eT : ((h : ℚ) - (startH : ℚ) + (m : ℚ) / 60) * 64 / 64 * 60
      = (((h - startH) * 60 + m : ℤ) : ℚ) := by push_cast; ring
  rw [eT]
  have eDiv : ((((h - startH) * 60 + m : ℤ) : ℚ)) / 60
      = ((h - startH : ℤ) : ℚ) + (m : ℚ) / 60 := by push_cast; ring
  have eFm : (⌊(m : ℚ) / 60⌋ : ℤ) = 0 := by
    rw [Int.floor_eq_zero_iff]
    constructor
    · positivity
    · rw [div_lt_one (by norm_num : (0:ℚ) < 60)]
      exact_mod_cast h4
  have eFloor : (⌊(((h - startH) * 60 + m : ℤ) : ℚ) / 60⌋ : ℤ) = h - startH := by
    rw [eDiv, Int.floor_int_add, eFm, add_zero]
  have eTr : ratTrunc ((((h - startH) * 60 + m : ℤ) : ℚ) / 60) = h - startH := by
    unfold ratTrunc
    rw [if_pos, eFloor]
    have hT0 : (0 : ℤ) ≤ (h - startH) * 60 + m := by omega
    have hTq : (0 : ℚ) ≤ (((h - startH) * 60 + m : ℤ) : ℚ) := by exact_mod_cast hT0
    positivity
  rw [eFloor, eTr]
  have eRaw : ((((h - startH) * 60 + m : ℤ) : ℚ)) - 60 * ((h - startH : ℤ) : ℚ)
      = (m : ℚ) := by push_cast; ring
  rw [eRaw]
  have eK : (m : ℚ) / 5 = (k : ℚ) := by rw [hk]; push_cast; ring
  have eHalf : (⌊(1 : ℚ) / 2⌋ : ℤ) = 0 := by norm_num
  have eSnap : (⌊(m : ℚ) / 5 + 1 / 2⌋ : ℤ) * 5 = m := by
    rw [eK, Int.floor_int_add, eHalf, add_zero]
    omega
  rw [eSnap]
  rw [if_neg (by omega : ¬ (60 : ℤ) ≤ m)]
  have eH : startH + (h - startH) = h := by ring
  rw [eH]
  rw [min_eq_left (by omega : h ≤ startH + len - 1),
      max_eq_right (by omega : startH ≤ h)]
  rw [min_eq_left hm55, max_eq_right h3]

/-- Claim C6: for an event whose `(hour, minute)` lies in the visible window
with `minute` on a 5-minute boundary, converting the time to its pixel
offset with `getBlockStyle` and converting that offset back with
`getTimeFromY` (at any grid screen position `rectTop`) returns exactly the
original `(hour, minute)`. -/
theorem grid_round_trip (startH len : ℤ) (e : SchedEvent) (rectTop : ℚ)
    (h1 : startH ≤ e.hour) (h2 : e.hour < startH + len)
    (h3 : 0 ≤ e.minute) (h4 : e.minute < 60) (h5 : (5:ℤ) ∣ e.minute) :
    getTimeFromY startH len (rectTop + (getBlockStyle startH e).1) rectTop =
      (e.hour, e.minute) :=
  getTimeFromY_exact startH len e.hour e.minute rectTop h1 h2 h3 h4 h5

/-- One transient drag interaction on the schedule grid: a pointer-move
preview update, a drag-leave, or a drag-end/cancel. -/
inductive DragMove where
  | over (payload : Option RawDragData) (clientX clientY rectTop : ℚ) (startH len : ℤ)
  | leave (leavingGrid : Bool)
  | cancel
deriving Repr

/-- Apply one drag interaction to the component state. -/
def applyDragMove (st : OrderState) : DragMove → OrderState
  | .over payload clientX clientY rectTop startH len =>
    handleScheduleDragOver payload clientX clientY rectTop startH len st
  | .leave b => handleScheduleDragLeave b st
  | .cancel => handleBlockDragEnd st

/-- Claim C7: any sequence of pointer-move preview updates, drag-leaves and
drag-cancels leaves the event store exactly equal to its pre-drag state;
of the drag handlers, only the drop handler mutates `schedEvents`. -/
theorem drag_preview_pure (moves : List DragMove) (st : OrderState) :
    (moves.foldl applyDragMove st).schedEvents = st.schedEvents := by
  induction moves generalizing st with
  | nil => rfl
  | cons mv rest ih =>
    rw [List.foldl_cons, ih]
    cases mv with
    | over payload cx cy rt sh ln => rfl
    | leave b =>
      show (handleScheduleDragLeave b st).schedEvents = st.schedEvents
      unfold handleScheduleDragLeave
      split <;> rfl
    | cancel => rfl

theorem getTimeFromY_bounds (startH len : ℤ) (y rectTop : ℚ) (hlen : 1 ≤ len) :
    startH ≤ (getTimeFromY startH len y rectTop).1 ∧
    (getTimeFromY startH len y rectTop).1 ≤ startH + len - 1 ∧
    0 ≤ (getTimeFromY startH len y rectTop).2 ∧
    (getTimeFromY startH len y rectTop).2 ≤ 55 ∧
    (5:ℤ) ∣ (getTimeFromY startH len y rectTop).2 := by
  simp only [getTimeFromY, jsMaxI_eq, jsMinI_eq]
  split_ifs <;> refine ⟨?_, ?_, ?_, ?_, ?_⟩ <;> simp <;> omega

theorem snapToIncrement_le (r : ℤ) (h0 : 0 ≤ r) (h59 : r < 60) :
    snapToIncrement r ≤ r + 2 ∧ 0 ≤ snapToIncrement r ∧ snapToIncrement r ≤ 55 := by
  have hfl : ((⌊(r : ℚ) / 5 + 1 / 2⌋ : ℤ) : ℚ) ≤ (r : ℚ) / 5 + 1 / 2 :=
    Int.floor_le _
  have hq3 : ((⌊(r : ℚ) / 5 + 1 / 2⌋ * 5 : ℤ) : ℚ) < ((r + 3 : ℤ) : ℚ) := by
    push_cast
    linarith
  have h3 : (⌊(r : ℚ) / 5 + 1 / 2⌋ * 5 : ℤ) < r + 3 := by exact_mod_cast hq3
  have hlow : 0 ≤ (⌊(r : ℚ) / 5 + 1 / 2⌋ : ℤ) := by
    rw [Int.floor_nonneg]
    have hr : (0 : ℚ) ≤ (r : ℚ) := by exact_mod_cast h0
    positivity
  simp only [snapToIncrement, jsRound]
  split_ifs with h60 <;> omega

theorem snapToIncrement_fixed (m : ℤ) (h5 : (5:ℤ) ∣ m) (h0 : 0 ≤ m) (h55 : m ≤ 55) :
    snapToIncrement m = m := by
  obtain ⟨k, hk⟩ := h5
  have eK : (m : ℚ) / 5 = (k : ℚ) := by rw [hk]; push_cast; ring
  have eHalf : (⌊(1 : ℚ) / 2⌋ : ℤ) = 0 := by norm_num
  simp only [snapToIncrement, jsRound]
  rw [eK, Int.floor_int_add, eHalf, add_zero]
  rw [if_neg (by omega : ¬ (60 : ℤ) ≤ k * 5)]
  omega

/-- Claim C8: committing a drag of an existing calendar event changes only
its start hour and minute — every event keeps its identity, title,
duration, type, linked-item reference and persistence flag — and the new
start is the pointer-derived time (exactly, when it fits) clamped so that
start time plus duration stays within the full day. -/
theorem drop_reposition (data : RawDragData) (freshId b : String)
    (clientY rectTop : ℚ) (startH len dur ph pm nH nM : ℤ)
    (tasks : Tasks) (habits : List Habit) (events : List SchedEvent)
    (hty : data.dataType = "scheduleBlock")
    (hb : data.blockId = some b) (hbne : b ≠ "")
    (hd : data.duration = some dur) (hd0 : dur ≠ 0)
    (hd1 : 1 ≤ dur) (hd600 : dur ≤ 600)
    (hsh0 : 0 ≤ startH) (hsh10 : startH ≤ 10)
    (hlen1 : 1 ≤ len) (hlen12 : len ≤ 12)
    (hhm : getTimeFromY startH len clientY rectTop = (ph, pm))
    (hrt : repositionTime startH len ph pm dur = (nH, nM)) :
    (handleScheduleDrop (some data) freshId clientY rectTop startH len tasks habits
        events).length = events.length ∧
    (∀ ev ∈ events, ev.id ≠ b →
      ev ∈ handleScheduleDrop (some data) freshId clientY rectTop startH len tasks
        habits events) ∧
    (∀ ev ∈ events, ev.id = b →
      ({ ev with hour := nH, minute := nM } : SchedEvent) ∈
        handleScheduleDrop (some data) freshId clientY rectTop startH len tasks
          habits events) ∧
    0 ≤ nH ∧ 0 ≤ nM ∧ nM ≤ 55 ∧ nH * 60 + nM + dur ≤ 1440 ∧
    ((ph - startH) * 60 + pm ≤ len * 60 - dur → nH = ph ∧ nM = pm) := by
  have hbounds := getTimeFromY_bounds startH len clientY rectTop hlen1
  rw [hhm] at hbounds
  obtain ⟨hph1, hph2, hpm0, hpm55, hpm5⟩ := hbounds
  have hdrop : handleScheduleDrop (some data) freshId clientY rectTop startH len
      tasks habits events =
      events.map (fun ev => if ev.id = b then
        { ev with hour := nH, minute := nM } else ev) := by
    simp only [handleScheduleDrop, hhm]
    rw [if_neg (by rw [hty]; decide), if_neg (by rw [hty]; decide),
        if_pos ⟨hty, by rw [hb]; simp [strTruthy, hbne]⟩, hb]
    simp only [intOr, hd, if_neg hd0, hrt]
  have hnH : startH + (max 0 (min ((ph - startH) * 60 + pm) (len * 60 - dur))) / 60 = nH := by
    have h' := congrArg Prod.fst hrt
    simpa [repositionTime, jsMaxI_eq, jsMinI_eq] using h'
  have hnM : snapToIncrement ((max 0 (min ((ph - startH) * 60 + pm) (len * 60 - dur))) % 60) = nM := by
    have h' := congrArg Prod.snd hrt
    simpa [repositionTime, jsMaxI_eq, jsMinI_eq] using h'
  have hsnap := snapToIncrement_le
    ((max 0 (min ((ph - startH) * 60 + pm) (len * 60 - dur))) % 60)
    (by omega) (by omega)
  refine ⟨?_, ?_, ?_, ?_, ?_, ?_, ?_, ?_⟩
  · rw [hdrop, List.length_map]
  · intro ev hev hne
    rw [hdrop]
    exact List.mem_map.mpr ⟨ev, hev, by simp [hne]⟩
  · intro ev hev heq
    rw [hdrop]
    exact List.mem_map.mpr ⟨ev, hev, by simp [heq]⟩
  · omega
  · omega
  · omega
  · omega
  · intro hfit
    have hfix : snapToIncrement pm = pm := snapToIncrement_fixed pm hpm5 hpm0 hpm55
    constructor
    · omega
    · have hc : (max 0 (min ((ph - startH) * 60 + pm) (len * 60 - dur))) % 60 = pm := by
        omega
      rw [hc] at hnM
      omega

section
attribute [local semireducible] Rat.sub Rat.add Rat.mul Rat.inv Rat.ofScientific

/-- Claim C9 counterexample: entering the free numeric custom duration "3"
commits an event with duration 3, which is neither clamped to the claimed
lower bound of 5 nor a multiple of 5 — the source clamps to [1, 600] and
never rounds. -/
theorem saveEvent_claim_counterexample :
    saveEvent ⟨"walk", 30, 9, 0, "3", "event", none, false⟩ "add" none "id1"
      ⟨[], [], [], [], []⟩ [] []
      = [⟨"id1", "walk", 9, 0, 3, "event", none, some false⟩] ∧
    ¬ (5 ≤ (3 : ℤ) ∧ (3 : ℤ) % 5 = 0) := by
  constructor
  · decide
  · decide

end

/-- Claim C9 (amended): saving the editor with a free numeric custom
duration parsing to a nonzero v commits an event whose duration is v
clamped to the range [1, 600]; no rounding to the nearest 5 minutes is
applied. -/
theorem saveEvent_custom_duration (ed : EditorState) (freshId : String)
    (tasks : Tasks) (habits : List Habit) (events : List SchedEvent) (v : ℤ)
    (hty : ed.popType = "event") (hti : jsTrim ed.popTitle ≠ "")
    (hcd : ed.customDur ≠ "") (hv : jsParseInt ed.customDur = some v)
    (hv0 : v ≠ 0) :
    ∃ newEv : SchedEvent,
      saveEvent ed "add" none freshId tasks habits events = events ++ [newEv] ∧
      newEv.duration = min 600 (max 1 v) := by
  have hres : resolveTitleRef ed tasks habits = (jsTrim ed.popTitle, none) := by
    unfold resolveTitleRef
    rw [if_neg, if_neg]
    · rintro ⟨h1, -⟩
      rw [hty] at h1
      exact absurd h1 (by decide)
    · rintro ⟨h1, -⟩
      rw [hty] at h1
      exact absurd h1 (by decide)
  have hpi : parseIntOr (some ed.customDur) 30 = v := by
    simp only [parseIntOr, hv]
    exact if_neg hv0
  have hdur : finalDuration ed.customDur ed.popDuration = min 600 (max 1 v) := by
    unfold finalDuration
    rw [if_pos hcd, hpi, jsMinI_eq, jsMaxI_eq]
  refine ⟨⟨freshId, jsTrim ed.popTitle, ed.popHour, ed.popMinute,
    finalDuration ed.customDur ed.popDuration, ed.popType, none,
    some ed.popPersistent⟩, ?_, hdur⟩
  unfold saveEvent
  rw [hres]
  simp only [ne_eq]
  rw [if_neg hti]
  simp

/-- Claim C10: a drop whose payload fails to parse as JSON, names a task
id absent from the (not-done) working tasks — in particular one belonging
only to done tasks — or names a habit id absent from the habit list,
leaves the event store unchanged and creates no event. -/
theorem drop_unresolvable (data : RawDragData) (freshId : String)
    (clientY rectTop : ℚ) (startH len : ℤ) (tasks : Tasks)
    (habits : List Habit) (events : List SchedEvent) (tid : String) :
    handleScheduleDrop none freshId clientY rectTop startH len tasks habits events
      = events ∧
    (data.dataType = "task" → (∀ p ∈ allTasks tasks, some p.1.id ≠ data.taskId) →
      handleScheduleDrop (some data) freshId clientY rectTop startH len tasks habits
        events = events) ∧
    (data.dataType = "habit" → (∀ hb ∈ habits, some hb.id ≠ data.habitId) →
      handleScheduleDrop (some data) freshId clientY rectTop startH len tasks habits
        events = events) ∧
    (data.dataType = "task" → data.taskId = some tid →
      (∀ t ∈ tasks.primary ++ tasks.today ++ tasks.thisWeek ++ tasks.later,
        t.id = tid → t.done = true) →
      handleScheduleDrop (some data) freshId clientY rectTop startH len tasks habits
        events = events) := by
  have goTask : data.dataType = "task" →
      (∀ p ∈ allTasks tasks, some p.1.id ≠ data.taskId) →
      handleScheduleDrop (some data) freshId clientY rectTop startH len tasks habits
        events = events := by
    intro hty hnone
    simp only [handleScheduleDrop]
    rw [if_pos hty]
    have hfind : (allTasks tasks).find? (fun p => some p.1.id = data.taskId) = none := by
      rw [List.find?_eq_none]
      intro p hp
      simp only [decide_eq_true_eq]
      exact hnone p hp
    rw [hfind]
  refine ⟨rfl, goTask, ?_, ?_⟩
  · intro hty hnone
    simp only [handleScheduleDrop]
    rw [if_neg (by rw [hty]; decide), if_pos hty]
    have hfind : habits.find? (fun h => some h.id = data.habitId) = none := by
      rw [List.find?_eq_none]
      intro hb hmem
      simp only [decide_eq_true_eq]
      exact hnone hb hmem
    rw [hfind]
  · intro hty htid hdone
    refine goTask hty ?_
    intro p hp
    simp only [allTasks, List.mem_filter, List.mem_append, List.mem_map] at hp
    obtain ⟨hmem, hnd⟩ := hp
    rw [htid]
    intro hcontra
    have hpid : p.1.id = tid := by
      simpa using hcontra
    have hp1 : p.1 ∈ tasks.primary ++ tasks.today ++ tasks.thisWeek ++ tasks.later := by
      simp only [List.mem_append]
      rcases hmem with ((⟨t, ht, rfl⟩ | ⟨t, ht, rfl⟩) | ⟨t, ht, rfl⟩) | ⟨t, ht, rfl⟩ <;>
        simp [ht]
    have := hdone p.1 hp1 hpid
    simp [this] at hnd

/-! Concrete sample data used by the witness theorems below. -/

/-- A sample instant: the morning of 2026-01-20 (ISO week 4). -/
def wNow : Instant := ⟨"2026-01-20", 4, "2026-01-20T09:00:00.000Z"⟩

/-- A sample habit, checked today. -/
def wHabit : Habit := ⟨"h1", "pray", true, [("2026-01-19", true)]⟩

/-- A persistent schedule event. -/
def wEventP : SchedEvent := ⟨"e1", "standup", 9, 0, 30, "event", none, some true⟩

/-- A non-persistent schedule event (no `persistent` field). -/
def wEventN : SchedEvent := ⟨"e2", "lunch", 12, 0, 60, "event", none, none⟩

/-- A completed working task. -/
def wTaskDone : Task := ⟨"t1", "write report", true, some "30m", none, none⟩

/-- An open working task. -/
def wTaskOpen : Task := ⟨"t2", "email", false, none, none, none⟩

/-- A sample application state whose ledger is two days stale. -/
def wState : ResetState :=
  ⟨[wHabit], [wEventP, wEventN], ⟨[wTaskDone, wTaskOpen], [], [], [], []⟩,
   "grateful", ⟨"m", "r", "w"⟩, "2026-01-18", "3"⟩

/-- An already-archived task. -/
def wArchived : Task :=
  ⟨"t0", "old", true, none, some "2026-01-10T00:00:00.000Z",
   some "2026-01-11T00:00:00.000Z"⟩

/-- A stale state whose archive already holds 100 tasks, with one more done
working task. -/
def wStateBig : ResetState :=
  ⟨[], [], ⟨[wTaskDone], [], [], [], List.replicate 100 wArchived⟩,
   "", ⟨"", "", ""⟩, "2026-01-18", "3"⟩

/-- An event at 14:15 in the 9-to-17 window. -/
def wEvent6 : SchedEvent := ⟨"e6", "deep work", 14, 15, 90, "event", none, none⟩

/-- A reposition drag payload for block `b1`, duration 30. -/
def wDragData : RawDragData := ⟨"scheduleBlock", none, none, some "b1", some 30⟩

/-- The schedule block being repositioned, starting at 9:00. -/
def wBlock : SchedEvent := ⟨"b1", "standup", 9, 0, 30, "event", none, none⟩

/-- An editor session with custom duration entry "700". -/
def wEditor : EditorState := ⟨"Read", 30, 9, 0, "700", "event", none, false⟩

/-- A task drop payload whose task id matches no current task. -/
def wBadTask : RawDragData := ⟨"task", some "zzz", none, none, none⟩

section
attribute [local semireducible] Rat.sub Rat.add Rat.mul Rat.inv Rat.ofScientific

/-- Witness for C2: the stale sample state rolls fully over at `wNow`. -/
theorem tick_catchup_witness :
    wState.lastDayKey ≠ wNow.dayKey ∧
    ((∀ hb ∈ (tick wNow wState).habits, hb.done = false) ∧
      (tick wNow wState).schedEvents =
        wState.schedEvents.filter (fun e => truthy e.persistent) ∧
      (tick wNow wState).tasks.primary =
        wState.tasks.primary.filter (fun t => !t.done) ∧
      (tick wNow wState).tasks.today =
        wState.tasks.today.filter (fun t => !t.done) ∧
      (tick wNow wState).tasks.thisWeek =
        wState.tasks.thisWeek.filter (fun t => !t.done) ∧
      (tick wNow wState).tasks.later =
        wState.tasks.later.filter (fun t => !t.done) ∧
      (tick wNow wState).tasks.completed =
        lastN 100 (wState.tasks.completed ++
          (doneTasks wState.tasks).map (stampTask wNow)) ∧
      (tick wNow wState).gratitude = "" ∧
      (tick wNow wState).reflections = emptyReflections ∧
      (tick wNow wState).lastDayKey = wNow.dayKey) :=
  ⟨by decide, tick_catchup wNow wState (by decide)⟩

/-- Witness for C3: the persistent sample event survives a tick, the
non-persistent one is removed. -/
theorem rollover_persistence_witness :
    (wEventP.persistent = some true ∧ wEventP ∈ wState.schedEvents ∧
      wEventP ∈ (runTicks [wNow] wState).schedEvents) ∧
    (truthy wEventN.persistent = false ∧ wEventN ∈ wState.schedEvents ∧
      dailyFires wNow wState = true ∧
      wEventN ∉ (tick wNow wState).schedEvents) :=
  ⟨⟨rfl, by decide,
    (rollover_persistence wState wEventP wNow [wNow]).1 rfl (by decide)⟩,
   ⟨rfl, by decide, by decide,
    (rollover_persistence wState wEventN wNow []).2 rfl (by decide) (by decide)⟩⟩

/-- Witness for C4: 100 archived plus 1 newly completed task exceed the cap
and the archive is trimmed to 100. -/
theorem archive_cap_witness :
    wStateBig.lastDayKey ≠ wNow.dayKey ∧
    100 < wStateBig.tasks.completed.length + (doneTasks wStateBig.tasks).length ∧
    ((tick wNow wStateBig).tasks.completed =
      lastN 100 (wStateBig.tasks.completed ++
        (doneTasks wStateBig.tasks).map (stampTask wNow)) ∧
    (tick wNow wStateBig).tasks.completed.length = 100 ∧
    (tick wNow wStateBig).tasks.completed <:+
      (wStateBig.tasks.completed ++
        (doneTasks wStateBig.tasks).map (stampTask wNow)) ∧
    (∀ t ∈ (doneTasks wStateBig.tasks).map (stampTask wNow),
      t.archivedAt = some wNow.iso ∧ t.completedAt.isSome = true)) :=
  ⟨by decide, by decide, archive_cap wNow wStateBig (by decide) (by decide)⟩

/-- Claim C5 (code bug): the ledger write is NOT the last persistence write
of the rollover transaction.  The habit/event/task `setItem` calls sit
inside `useState` updaters that React defers to the next render flush, so
the synchronous body persists `selah_lastDailyResetISO` (line 109) before
the `selah_schedEvents` and `selah_tasks` writes.  On the stale sample
state the actual key order is gratitude, reflections, day ledger, week
ledger, and only then habits, events, tasks; an interruption after the
synchronous body (before the flush) leaves the ledger advanced while the
non-persistent event and the done task are still unpersisted, and the next
tick is a complete no-op — a skip, not the retry the claim requires. -/
theorem ledger_write_precedes_purge :
    dailyFires wNow wState = true ∧
    (tickPersistWrites wNow wState).map WriteOp.key =
      ["selah_gratitude", "selah_reflections", "selah_lastDailyResetISO",
       "selah_last_habit_reset_week", "selah_habits", "selah_schedEvents",
       "selah_tasks", "selah_habits"] ∧
    (List.foldl applyWrite wState
      (dailySyncWrites wNow wState ++ weeklySyncWrites wNow wState)).lastDayKey
      = wNow.dayKey ∧
    dailyFires wNow (List.foldl applyWrite wState
      (dailySyncWrites wNow wState ++ weeklySyncWrites wNow wState)) = false ∧
    wEventN ∈ (List.foldl applyWrite wState
      (dailySyncWrites wNow wState ++ weeklySyncWrites wNow wState)).schedEvents ∧
    wTaskDone ∈ (List.foldl applyWrite wState
      (dailySyncWrites wNow wState ++ weeklySyncWrites wNow wState)).tasks.primary ∧
    tick wNow (List.foldl applyWrite wState
      (dailySyncWrites wNow wState ++ weeklySyncWrites wNow wState)) =
      List.foldl applyWrite wState
        (dailySyncWrites wNow wState ++ weeklySyncWrites wNow wState) :=
  ⟨by decide, by decide, by decide, by decide, by decide, by decide, by decide⟩

/-- Witness for C6: 14:15 in the 9-to-17 window round-trips through the
pixel grid at `rectTop = 100`. -/
theorem grid_round_trip_witness :
    ((9:ℤ) ≤ wEvent6.hour ∧ wEvent6.hour < 9 + 8 ∧ (0:ℤ) ≤ wEvent6.minute ∧
      wEvent6.minute < 60 ∧ (5:ℤ) ∣ wEvent6.minute) ∧
    getTimeFromY 9 8 (100 + (getBlockStyle 9 wEvent6).1) 100 =
      (wEvent6.hour, wEvent6.minute) :=
  ⟨⟨by decide, by decide, by decide, by decide, ⟨3, by decide⟩⟩,
   grid_round_trip 9 8 wEvent6 100 (by decide) (by decide) (by decide)
     (by decide) ⟨3, by decide⟩⟩

/-- Witness for C8: the spec's scenario — a 9:00, 30-minute block dropped
at a pointer position resolving to 14:15 moves to 14:15 with everything
else unchanged. -/
theorem drop_reposition_witness :
    getTimeFromY 9 8 342 0 = (14, 15) ∧
    repositionTime 9 8 14 15 30 = (14, 15) ∧
    ({ wBlock with hour := 14, minute := 15 } : SchedEvent) ∈
      handleScheduleDrop (some wDragData) "f1" 342 0 9 8 ⟨[], [], [], [], []⟩
        [] [wBlock] :=
  ⟨by decide, by decide,
   (drop_reposition wDragData "f1" "b1" 342 0 9 8 30 14 15 14 15
      ⟨[], [], [], [], []⟩ [] [wBlock] rfl rfl (by decide) rfl (by decide)
      (by decide) (by decide) (by decide) (by decide) (by decide) (by decide)
      (by decide) (by decide)).2.2.1 wBlock (by decide) rfl⟩

/-- Witness for C9 (amended): entering "700" commits duration 600. -/
theorem saveEvent_custom_duration_witness :
    (wEditor.popType = "event" ∧ jsTrim wEditor.popTitle ≠ "" ∧
      wEditor.customDur ≠ "" ∧ jsParseInt wEditor.customDur = some 700 ∧
      (700:ℤ) ≠ 0) ∧
    (∃ newEv : SchedEvent,
      saveEvent wEditor "add" none "id2" ⟨[], [], [], [], []⟩ [] []
        = [] ++ [newEv] ∧
      newEv.duration = min 600 (max 1 700)) :=
  ⟨⟨rfl, by decide, by decide, by decide, by decide⟩,
   saveEvent_custom_duration wEditor "id2" ⟨[], [], [], [], []⟩ [] [] 700
     rfl (by decide) (by decide) (by decide) (by decide)⟩

/-- Witness for C10: an unparseable payload and a task payload naming an
unknown task id both leave the store unchanged. -/
theorem drop_unresolvable_witness :
    (wBadTask.dataType = "task" ∧
      (∀ p ∈ allTasks wState.tasks, some p.1.id ≠ wBadTask.taskId)) ∧
    handleScheduleDrop none "f2" 342 0 9 8 wState.tasks [wHabit] [wEventP]
      = [wEventP] ∧
    handleScheduleDrop (some wBadTask) "f2" 342 0 9 8 wState.tasks [wHabit]
      [wEventP] = [wEventP] :=
  ⟨⟨rfl, by decide⟩,
   (drop_unresolvable wBadTask "f2" 342 0 9 8 wState.tasks [wHabit] [wEventP]
     "zzz").1,
   (drop_unresolvable wBadTask "f2" 342 0 9 8 wState.tasks [wHabit] [wEventP]
     "zzz").2.1 rfl (by decide)⟩

end

end Selah
